import Mathlib

/-!
Verification of the cross-provider generation adapter of qflow-cli.

The definitions below are a shallow embedding of the TypeScript sources:
  * `src/packages/core/src/core/openAICompatibleContentGenerator.ts`
    (`mapFinishReason`, the streaming loop of `generateContentStream`),
  * the OpenAI converter module (`convertToOpenAIMessagesWithTools`,
    `convertToGenerateContentResponse`),
  * `src/packages/core/src/utils/tokenEstimator.ts` (`estimateTotalTokens`),
  * the model-resolution module (`resolveModel`, `getEffectiveModel`).

External platform functions are kept abstract: `JSON.parse` is a parameter
`jparse : String → Option JsonVal` (`none` models a thrown SyntaxError),
`JSON.stringify` a parameter `jstringify : JsonVal → String`, the
`gpt-tokenizer` `encode` is a parameter `encLen : String → Nat` giving the
token-list length, and the `call_${Date.now()}_${...}` fresh-id templates are
a supply `idSupply : Nat → String` sampled in program order.  JavaScript
string truthiness (`''` is falsy) and `x || d` defaulting are modeled
explicitly by the helpers `strTruthy`, `optStr` and `jsOrStr`.
-/

namespace QF

/-- JavaScript truthiness of an optional string: `undefined`/`null` and the
empty string are falsy. -/
def strTruthy : Option String → Bool
  | some s => !s.isEmpty
  | none => false

/-- The string carried by an optional value, `""` when absent. -/
def optStr (o : Option String) : String := o.getD ""

/-- JavaScript `a || d` for an optional string `a`: falsy (`undefined` or
`""`) falls through to the default. -/
def jsOrStr (a : Option String) (d : String) : String :=
  match a with
  | some s => if s.isEmpty then d else s
  | none => d

/-- Substring test on character lists, used to model
`String.prototype.includes`. -/
def listHasInfix (needle : List Char) : List Char → Bool
  | [] => needle.isEmpty
  | c :: rest => needle.isPrefixOf (c :: rest) || listHasInfix needle rest

/-- JavaScript `s.includes(pat)`. -/
def jsIncludes (s pat : String) : Bool := listHasInfix pat.toList s.toList

/-- A JSON value, the result type of the abstract `JSON.parse`. -/
inductive JsonVal where
  | jnull
  | jbool (b : Bool)
  | jnum (n : Int)
  | jstr (s : String)
  | jarr (elems : List JsonVal)
  | jobj (fields : List (String × JsonVal))

/-- A canonical content part: a text fragment or a function call.  The
`functionCall.args` field holds the parsed argument object. -/
inductive Part where
  | text (s : String)
  | functionCall (name : String) (args : JsonVal)

/-- Usage metadata attached to a canonical response
(`promptTokenCount`/`candidatesTokenCount`/`totalTokenCount`). -/
structure UsageMetadata where
  promptTokenCount : Int
  candidatesTokenCount : Int
  totalTokenCount : Int
deriving DecidableEq

/-- A candidate of a canonical `GenerateContentResponse`.  The constant
fields of the source records (`safetyRatings: []`, `citationMetadata`,
`groundingMetadata`, `finishMessage`: all `undefined`) are omitted; the
finish reason is carried as the raw enum/provider string
(the `@google/genai` `FinishReason` enum values are the strings `"STOP"`,
`"MAX_TOKENS"`, `"SAFETY"`, `"OTHER"`, ...). -/
structure Candidate where
  role : String
  parts : List Part
  finishReason : Option String
  index : Nat

/-- A canonical `GenerateContentResponse`. -/
structure GenResponse where
  candidates : List Candidate
  modelVersion : String
  usageMetadata : Option UsageMetadata

/-- `mapFinishReason` of `OpenAICompatibleContentGenerator`
(openAICompatibleContentGenerator.ts lines 77-94): falsy reasons give
`undefined`; `stop`, `function_call` and `tool_calls` map to STOP, `length`
to MAX_TOKENS, `content_filter` to SAFETY, everything else to OTHER. -/
def mapFinishReason : Option String → Option String
  | none => none
  | some r =>
    if r.isEmpty then none
    else if r = "stop" then some "STOP"
    else if r = "length" then some "MAX_TOKENS"
    else if r = "content_filter" then some "SAFETY"
    else if r = "function_call" then some "STOP"
    else if r = "tool_calls" then some "STOP"
    else some "OTHER"

/-- The raw TypeScript cast `(finish_reason as FinishReason) || FinishReason.STOP`
used by the batch normalizer and by the streaming tool-call finalize path:
a falsy provider reason becomes `"STOP"`, any other provider string passes
through unmapped. -/
def rawFinishCast (fr : Option String) : String :=
  match fr with
  | some s => if s.isEmpty then "STOP" else s
  | none => "STOP"

/-! ## Model resolution (`resolveModel`, `getEffectiveModel`) -/

def PREVIEW_GEMINI_MODEL : String := "gemini-3-pro-preview"
def DEFAULT_GEMINI_MODEL : String := "gemini-2.5-pro"
def DEFAULT_GEMINI_FLASH_MODEL : String := "gemini-2.5-flash"
def DEFAULT_GEMINI_FLASH_LITE_MODEL : String := "gemini-2.5-flash-lite"
def DEFAULT_GEMINI_MODEL_AUTO : String := "auto"
def GEMINI_MODEL_ALIAS_PRO : String := "pro"
def GEMINI_MODEL_ALIAS_FLASH : String := "flash"
def GEMINI_MODEL_ALIAS_FLASH_LITE : String := "flash-lite"

/-- `resolveModel(requestedModel, previewFeaturesEnabled)`: resolves the
`auto`/`pro`/`flash`/`flash-lite` aliases; any other name is returned
unchanged.  `previewFeaturesEnabled : boolean | undefined` is modeled as
`Option Bool`, truthy exactly when `some true`. -/
def resolveModel (requestedModel : String) (previewFeaturesEnabled : Option Bool) : String :=
  if requestedModel = DEFAULT_GEMINI_MODEL_AUTO ∨ requestedModel = GEMINI_MODEL_ALIAS_PRO then
    if previewFeaturesEnabled = some true then PREVIEW_GEMINI_MODEL else DEFAULT_GEMINI_MODEL
  else if requestedModel = GEMINI_MODEL_ALIAS_FLASH then DEFAULT_GEMINI_FLASH_MODEL
  else if requestedModel = GEMINI_MODEL_ALIAS_FLASH_LITE then DEFAULT_GEMINI_FLASH_LITE_MODEL
  else requestedModel

/-- `getEffectiveModel(isInFallbackMode, requestedModel, previewFeaturesEnabled)`:
outside fallback mode the resolved model is used as-is; in fallback mode a
resolved name containing `"lite"` is honored, anything else is forced to
`DEFAULT_GEMINI_FLASH_MODEL`. -/
def getEffectiveModel (isInFallbackMode : Bool) (requestedModel : String)
    (previewFeaturesEnabled : Option Bool) : String :=
  let resolvedModel := resolveModel requestedModel previewFeaturesEnabled
  if !isInFallbackMode then resolvedModel
  else if jsIncludes resolvedModel "lite" then resolvedModel
  else DEFAULT_GEMINI_FLASH_MODEL

/-! ## Token estimator (`tokenEstimator.ts`) -/

/-- `TokenCount` of `tokenEstimator.ts`. -/
structure TokenCount where
  promptTokens : Nat
  completionTokens : Nat
  totalTokens : Nat
deriving DecidableEq

/-- `TokenEstimator.estimateTotalTokens(promptContent, completionContent)`:
prompt and completion token counts are the lengths of the `gpt-tokenizer`
encodings (abstracted as `encLen`), the total is their sum.
The catch-all in `estimatePromptTokens`/`estimateCompletionTokens` returning
0 on a tokenizer throw is subsumed by `encLen` being total. -/
def estimateTotalTokens (encLen : String → Nat) (promptContent completionContent : String) :
    TokenCount :=
  let promptTokens := encLen promptContent
  let completionTokens := encLen completionContent
  ⟨promptTokens, completionTokens, promptTokens + completionTokens⟩

/-! ## Batch normalizer (`convertToGenerateContentResponse`) -/

/-- Provider-reported usage; each field may be absent. -/
structure OpenAIUsage where
  prompt_tokens : Option Int
  completion_tokens : Option Int
  total_tokens : Option Int
deriving DecidableEq

/-- `response.usage` copied into usage metadata, each field defaulted with
`|| 0`. -/
def usageMetaOfOpenAI (u : OpenAIUsage) : UsageMetadata :=
  ⟨u.prompt_tokens.getD 0, u.completion_tokens.getD 0, u.total_tokens.getD 0⟩

/-- `function` payload of a provider tool call in a batch response. -/
structure OpenAIFunctionPayload where
  name : String
  arguments : Option String
deriving DecidableEq

/-- A provider tool call in a batch response. -/
structure OpenAIToolCall where
  id : Option String
  type : String
  function : OpenAIFunctionPayload
deriving DecidableEq

/-- An element of an array-shaped `message.content`. -/
structure ContentItem where
  type : String
  text : String
deriving DecidableEq

/-- `message.content`: either a plain string or an array of typed items. -/
inductive MsgContent where
  | str (s : String)
  | items (l : List ContentItem)
deriving DecidableEq

/-- JavaScript truthiness of `message.content`: an empty string is falsy, an
array (even empty) is truthy. -/
def contentTruthy : MsgContent → Bool
  | .str s => !s.isEmpty
  | .items _ => true

/-- Text extraction from `message.content`: a string is itself; an array is
the join of the `text` fields of its items with `type === 'text'`. -/
def extractTextContent : MsgContent → String
  | .str s => s
  | .items l => String.join ((l.filter (fun it => it.type = "text")).map (fun it => it.text))

/-- A provider chat message in a batch response. -/
structure OpenAICompletionMessage where
  content : Option MsgContent
  tool_calls : Option (List OpenAIToolCall)
deriving DecidableEq

/-- A choice of a batch completion response. -/
structure OpenAIChoice where
  message : Option OpenAICompletionMessage
  finish_reason : Option String
deriving DecidableEq

/-- A provider batch completion response. -/
structure OpenAICompletionResponse where
  choices : Option (List OpenAIChoice)
  model : Option String
  usage : Option OpenAIUsage
deriving DecidableEq

/-- `JSON.parse(args || '{}')` with the catch branch: an empty or absent
argument string parses `"{}"`; a parse failure (abstract `jparse` returning
`none`) falls back to the empty object. -/
def parseArgsJS (jparse : String → Option JsonVal) (arguments : String) : JsonVal :=
  match jparse (if arguments.isEmpty then "\x7b\x7d" else arguments) with
  | some v => v
  | none => JsonVal.jobj []

/-- The text parts contributed by a batch message: one part holding the
extracted text when `message.content` is truthy and the extracted text is
non-empty. -/
def batchTextParts (m : OpenAICompletionMessage) : List Part :=
  match m.content with
  | none => []
  | some mc =>
    if contentTruthy mc then
      let textContent := extractTextContent mc
      if textContent.isEmpty then [] else [Part.text textContent]
    else []

/-- The function-call parts contributed by a batch message: one part per tool
call with `type === 'function'`, with arguments parsed via
`JSON.parse(arguments || '{}')` and the empty-object fallback on failure. -/
def batchToolParts (jparse : String → Option JsonVal) (m : OpenAICompletionMessage) :
    List Part :=
  match m.tool_calls with
  | none => []
  | some calls =>
    calls.filterMap (fun tc =>
      if tc.type = "function" then
        some (Part.functionCall tc.function.name (parseArgsJS jparse (optStr tc.function.arguments)))
      else none)

/-- The parts of the first choice of a batch response, before the
empty-parts default. -/
def batchParts (jparse : String → Option JsonVal) (c0 : OpenAIChoice) : List Part :=
  match c0.message with
  | none => []
  | some m => batchTextParts m ++ batchToolParts jparse m

/-- `convertToGenerateContentResponse(response)`: missing or empty `choices`
yields the synthetic error response with finishReason STOP; otherwise the
single candidate carries the first choice's text and function-call parts
(defaulting to one empty text part), the raw-cast finish reason, and the
provider usage copied verbatim when present. -/
def convertToGenerateContentResponse (jparse : String → Option JsonVal)
    (response : OpenAICompletionResponse) : GenResponse :=
  match response.choices with
  | none =>
    { candidates := [{ role := "model",
                       parts := [Part.text "Error: Invalid response from OpenAI API"],
                       finishReason := some "STOP", index := 0 }],
      modelVersion := jsOrStr response.model "unknown",
      usageMetadata := none }
  | some [] =>
    { candidates := [{ role := "model",
                       parts := [Part.text "Error: Invalid response from OpenAI API"],
                       finishReason := some "STOP", index := 0 }],
      modelVersion := jsOrStr response.model "unknown",
      usageMetadata := none }
  | some (c0 :: _) =>
    let parts0 := batchParts jparse c0
    let parts := if parts0.isEmpty then [Part.text ""] else parts0
    { candidates := [{ role := "model", parts := parts,
                       finishReason := some (rawFinishCast c0.finish_reason), index := 0 }],
      modelVersion := jsOrStr response.model "unknown",
      usageMetadata := response.usage.map usageMetaOfOpenAI }

/-- The text of a batch choice as the normalizer sees it: empty when there is
no message, no truthy content, or no extracted text. -/
def textOfChoice (c : OpenAIChoice) : String :=
  match c.message with
  | none => ""
  | some m =>
    match m.content with
    | none => ""
    | some mc => if contentTruthy mc then extractTextContent mc else ""

/-- The tool calls of a batch choice with `type === 'function'`. -/
def funcCallsOfChoice (c : OpenAIChoice) : List OpenAIToolCall :=
  match c.message with
  | none => []
  | some m => (m.tool_calls.getD []).filter (fun tc => tc.type = "function")

/-! ## Streaming normalizer (`generateContentStream`, lines 192-624) -/

/-- The `function` record of an accumulated tool call. -/
structure ToolCallFunction where
  name : String
  arguments : String
deriving DecidableEq

/-- An entry of the streaming `accumulatedToolCalls` array. -/
structure AccumulatedToolCall where
  id : String
  type : String
  function : ToolCallFunction
deriving DecidableEq

/-- The optional `function` fragment of a streamed tool-call delta. -/
structure StreamFnDelta where
  name : Option String
  arguments : Option String
deriving DecidableEq

/-- One element of `delta.tool_calls`. -/
structure StreamToolCallDelta where
  index : Option Nat
  id : Option String
  function : Option StreamFnDelta
deriving DecidableEq

/-- The `delta` of a streamed choice. -/
structure StreamDelta where
  content : Option String
  tool_calls : Option (List StreamToolCallDelta)
deriving DecidableEq

/-- A choice of a stream chunk. -/
structure StreamChoice where
  delta : Option StreamDelta
  finish_reason : Option String
  usage : Option OpenAIUsage
deriving DecidableEq

/-- A stream chunk (one decoded SSE frame). -/
structure StreamChunk where
  choices : Option (List StreamChoice)
  usage : Option OpenAIUsage
  model : Option String
deriving DecidableEq

/-- The `accumulatedUsage` record of the streaming loop. -/
structure AccUsage where
  prompt_tokens : Int
  completion_tokens : Int
  total_tokens : Int
deriving DecidableEq

def usageMetaOfAcc (u : AccUsage) : UsageMetadata :=
  ⟨u.prompt_tokens, u.completion_tokens, u.total_tokens⟩

/-- A provider usage report copied into the accumulator, each field
defaulted with `|| 0`. -/
def accUsageOfOpenAI (u : OpenAIUsage) : AccUsage :=
  ⟨u.prompt_tokens.getD 0, u.completion_tokens.getD 0, u.total_tokens.getD 0⟩

/-- Usage accumulation of one chunk (lines 319-340): a chunk-level usage
object overwrites the snapshot, else a choice-level one does, else the
snapshot is kept. -/
def usageFromChunk (cur : AccUsage) (ch : StreamChunk) (c0 : StreamChoice) : AccUsage :=
  match ch.usage with
  | some u => accUsageOfOpenAI u
  | none =>
    match c0.usage with
    | some u => accUsageOfOpenAI u
    | none => cur

/-- The mutable state of the streaming loop. -/
structure StreamState where
  hasYielded : Bool
  accumulatedToolCalls : List (Option AccumulatedToolCall)
  accumulatedUsage : AccUsage
  accumulatedCompletionContent : String
  nextCallId : Nat
deriving DecidableEq

/-- The ambient parameters of one streaming call: the abstract `JSON.parse`,
the tokenizer length, the fresh-id supply for the
`call_${Date.now()}_${index}` template (sampled in program order), the
serialized prompt content and `this.model`. -/
structure StreamEnv where
  jparse : String → Option JsonVal
  encLen : String → Nat
  idSupply : Nat → String
  promptContent : String
  modelName : String

def initialStreamState : StreamState :=
  ⟨false, [], ⟨0, 0, 0⟩, "", 0⟩

/-- The locally-estimated usage metadata
(`tokenEstimator.estimateTotalTokens`). -/
def estMeta (encLen : String → Nat) (prompt completion : String) : UsageMetadata :=
  let t := estimateTotalTokens encLen prompt completion
  ⟨(t.promptTokens : Int), (t.completionTokens : Int), (t.totalTokens : Int)⟩

/-- Usage attached to the empty-content, tool-call and fallback responses:
the provider snapshot when its total is positive, else the local estimate. -/
def usageProvOrEst (env : StreamEnv) (completion : String) (u : AccUsage) : UsageMetadata :=
  if 0 < u.total_tokens then usageMetaOfAcc u
  else estMeta env.encLen env.promptContent completion

/-- `chunk['model'] || this.model || 'unknown'`. -/
def modelVersionOf (env : StreamEnv) (m : Option String) : String :=
  jsOrStr m (if env.modelName.isEmpty then "unknown" else env.modelName)

/-- JavaScript array read `arr[i]`: `undefined` past the end or at a hole. -/
def jsArrayGet {α : Type} (l : List (Option α)) (i : Nat) : Option α :=
  l.getD i none

/-- JavaScript array write `arr[i] = v`: writing past the end extends the
array with holes. -/
def jsArraySet {α : Type} (l : List (Option α)) (i : Nat) (v : α) : List (Option α) :=
  if i < l.length then l.set i (some v)
  else l ++ List.replicate (i - l.length) none ++ [some v]

/-- `if (frag) base += frag` — append guarded by string truthiness. -/
def appendIfTruthy (base : String) (frag : Option String) : String :=
  match frag with
  | some s => if s.isEmpty then base else base ++ s
  | none => base

/-- Processing of one tool-call delta (lines 456-482): the slot at
`toolCallDelta.index || 0` is created on first touch (id from the delta when
truthy, else a fresh sample), then the name and argument fragments are
appended — never replaced — when truthy. -/
def applyToolCallDelta (idSupply : Nat → String)
    (acc : List (Option AccumulatedToolCall)) (k : Nat)
    (tcd : StreamToolCallDelta) : List (Option AccumulatedToolCall) × Nat :=
  let index := tcd.index.getD 0
  let initialized :=
    match jsArrayGet acc index with
    | some _ => (acc, k)
    | none =>
      match tcd.id with
      | some s =>
        if s.isEmpty then
          (jsArraySet acc index
            { id := idSupply k, type := "function",
              function := { name := "", arguments := "" } }, k + 1)
        else
          (jsArraySet acc index
            { id := s, type := "function",
              function := { name := "", arguments := "" } }, k)
      | none =>
        (jsArraySet acc index
          { id := idSupply k, type := "function",
            function := { name := "", arguments := "" } }, k + 1)
  let acc1 := initialized.1
  let k1 := initialized.2
  match jsArrayGet acc1 index with
  | some tc =>
    (jsArraySet acc1 index
      { tc with function :=
          { name := appendIfTruthy tc.function.name (tcd.function.bind StreamFnDelta.name),
            arguments :=
              appendIfTruthy tc.function.arguments
                (tcd.function.bind StreamFnDelta.arguments) } }, k1)
  | none => (acc1, k1)

def applyToolCallDeltas (idSupply : Nat → String)
    (acc : List (Option AccumulatedToolCall)) (k : Nat)
    (deltas : List StreamToolCallDelta) : List (Option AccumulatedToolCall) × Nat :=
  deltas.foldl (fun p tcd => applyToolCallDelta idSupply p.1 p.2 tcd) (acc, k)

/-- Finalization loop over the accumulated array (lines 503-526): iterating a
hole throws (`.error ()`, aborting the generator); a slot with a falsy name
is skipped entirely; otherwise the argument buffer (or `'{}'` if empty) is
parsed with the empty-object fallback. -/
def finalizeToolCalls (jparse : String → Option JsonVal) :
    List (Option AccumulatedToolCall) → Except Unit (List Part)
  | [] => .ok []
  | none :: _ => .error ()
  | some tc :: rest =>
    match finalizeToolCalls jparse rest with
    | .error e => .error e
    | .ok parts =>
      if tc.function.name.isEmpty then .ok parts
      else .ok (Part.functionCall tc.function.name
        (parseArgsJS jparse tc.function.arguments) :: parts)

/-- The incremental text response (lines 350-403): only the current
increment, finish reason mapped when the frame is terminal, usage attached
only on the terminal frame (provider snapshot if its total is positive,
local estimate if it is zero). -/
def mkCandidate (parts : List Part) (finishReason : Option String) : Candidate :=
  { role := "model", parts := parts, finishReason := finishReason, index := 0 }

def contentResponse (env : StreamEnv) (ch : StreamChunk) (c0 : StreamChoice)
    (accU : AccUsage) (completion1 contentVal : String) (isFinished : Bool) : GenResponse :=
  { candidates := [mkCandidate [Part.text contentVal]
      (if isFinished then some ((mapFinishReason c0.finish_reason).getD "STOP") else none)],
    modelVersion := modelVersionOf env ch.model,
    usageMetadata :=
      if isFinished ∧ 0 < accU.total_tokens then some (usageMetaOfAcc accU)
      else if isFinished ∧ accU.total_tokens = 0 then
        some (estMeta env.encLen env.promptContent completion1)
      else none }

/-- The finish-only empty-content response (lines 407-451). -/
def emptyContentResponse (env : StreamEnv) (ch : StreamChunk) (c0 : StreamChoice)
    (accU : AccUsage) (completion1 : String) : GenResponse :=
  { candidates := [mkCandidate [Part.text ""]
      (some ((mapFinishReason c0.finish_reason).getD "STOP"))],
    modelVersion := modelVersionOf env ch.model,
    usageMetadata := some (usageProvOrEst env completion1 accU) }

/-- The tool-call finalize response (lines 487-561); note the finish reason
is the raw cast, not `mapFinishReason`. -/
def toolCallResponse (env : StreamEnv) (ch : StreamChunk) (c0 : StreamChoice)
    (accU : AccUsage) (completion1 : String) (toolParts : List Part) : GenResponse :=
  { candidates := [mkCandidate toolParts (some (rawFinishCast c0.finish_reason))],
    modelVersion := modelVersionOf env ch.model,
    usageMetadata := some (usageProvOrEst env completion1 accU) }

/-- The post-loop fallback response (lines 565-615). -/
def fallbackResponse (env : StreamEnv) (st : StreamState) : GenResponse :=
  { candidates := [mkCandidate [Part.text ""] (some "STOP")],
    modelVersion := if env.modelName.isEmpty then "unknown" else env.modelName,
    usageMetadata :=
      some (usageProvOrEst env st.accumulatedCompletionContent st.accumulatedUsage) }

/-- The body of the streaming `for await` loop for one chunk: returns the
new state, the responses yielded for this chunk in order, and whether the
finalize loop threw. -/
def stepChunk (env : StreamEnv) (st : StreamState) (ch : StreamChunk) :
    StreamState × List GenResponse × Bool :=
  match ch.choices with
  | none => (st, [], false)
  | some [] => (st, [], false)
  | some (c0 :: _) =>
    match c0.delta with
    | none => (st, [], false)
    | some delta =>
      let accU := usageFromChunk st.accumulatedUsage ch c0
      let isFinished := strTruthy c0.finish_reason
      let hasContent := strTruthy delta.content
      let contentVal := optStr delta.content
      let completion1 :=
        if hasContent then st.accumulatedCompletionContent ++ contentVal
        else st.accumulatedCompletionContent
      let contentResps :=
        if hasContent then [contentResponse env ch c0 accU completion1 contentVal isFinished]
        else if isFinished ∧ st.accumulatedToolCalls.length = 0 then
          [emptyContentResponse env ch c0 accU completion1]
        else []
      let afterTools :=
        match delta.tool_calls with
        | some deltas => applyToolCallDeltas env.idSupply st.accumulatedToolCalls st.nextCallId deltas
        | none => (st.accumulatedToolCalls, st.nextCallId)
      let acc2 := afterTools.1
      let k2 := afterTools.2
      let st' : StreamState :=
        { hasYielded := st.hasYielded || hasContent,
          accumulatedToolCalls := acc2,
          accumulatedUsage := accU,
          accumulatedCompletionContent := completion1,
          nextCallId := k2 }
      if isFinished ∧ 0 < acc2.length then
        match finalizeToolCalls env.jparse acc2 with
        | .error _ => (st', contentResps, true)
        | .ok toolParts =>
          (st', contentResps ++ [toolCallResponse env ch c0 accU completion1 toolParts], false)
      else (st', contentResps, false)

/-- The loop over all chunks, stopping at a thrown finalize. -/
def foldChunks (env : StreamEnv) (st : StreamState) :
    List StreamChunk → StreamState × List GenResponse × Bool
  | [] => (st, [], false)
  | ch :: rest =>
    let r := stepChunk env st ch
    if r.2.2 then (r.1, r.2.1, true)
    else
      let r2 := foldChunks env r.1 rest
      (r2.1, r.2.1 ++ r2.2.1, r2.2.2)

/-- `generateContentStream` over a finite frame sequence: the loop, then
the `!hasYielded` fallback (skipped when the loop threw; the `finally`
block only releases the logger).  The Boolean is true when the stream
aborted with a thrown exception. -/
def generateContentStream (env : StreamEnv) (chunks : List StreamChunk) :
    List GenResponse × Bool :=
  let r := foldChunks env initialStreamState chunks
  if r.2.2 then (r.2.1, true)
  else if !r.1.hasYielded ∧ r.1.accumulatedToolCalls.length = 0 then
    (r.2.1 ++ [fallbackResponse env r.1], false)
  else (r.2.1, false)

/-! ## Request translator (`convertToOpenAIMessagesWithTools`) -/

/-- A `functionResponse.response` payload.  `String(x)` coercions of the
`output`/`stdout`/`result` fields and the `JSON.stringify(obj, null, 2)`
fallback are modeled by storing the rendered strings. -/
inductive FnRespVal where
  | str (s : String)
  | obj (output stdout result : Option String) (stringified : String)
  | prim (rendered : String)

/-- The `contentString` computation for a tool message: a string response is
used as-is; an object response uses `output`, then `stdout`, then `result`,
then its JSON rendering; any other value its string coercion. -/
def renderFunctionResponse : FnRespVal → String
  | .str s => s
  | .obj (some o) _ _ _ => o
  | .obj none (some st) _ _ => st
  | .obj none none (some r) _ => r
  | .obj none none none j => j
  | .prim s => s

structure GFunctionCall where
  name : Option String
  args : Option JsonVal

structure GFunctionResponse where
  name : Option String
  response : Option FnRespVal

/-- A canonical request part (`PartUnion` object form). -/
structure GPart where
  text : Option String
  functionCall : Option GFunctionCall
  functionResponse : Option GFunctionResponse

/-- `PartUnion`: a bare string or a part object. -/
inductive GPartU where
  | prim (s : String)
  | part (p : GPart)

structure GContent where
  role : String
  parts : List GPartU

/-- An element of an array-shaped `ContentListUnion`. -/
inductive GContentU where
  | prim (s : String)
  | content (c : GContent)

/-- `ContentListUnion`: a string, a single Content, or an array. -/
inductive ContentsU where
  | str (s : String)
  | single (c : GContent)
  | many (items : List GContentU)

/-- The result of `extractFromPartUnion`: at most one field set, text taking
precedence over functionCall over functionResponse (`part.text !== undefined`
matches even the empty string). -/
structure Extracted where
  text : Option String
  functionCall : Option (String × JsonVal)
  functionResponse : Option (String × FnRespVal)

def extractFromPartUnion : GPartU → Extracted
  | .prim s => ⟨some s, none, none⟩
  | .part p =>
    match p.text with
    | some t => ⟨some t, none, none⟩
    | none =>
      match p.functionCall with
      | some fc =>
        ⟨none, some (jsOrStr fc.name "unknown", fc.args.getD (JsonVal.jobj [])), none⟩
      | none =>
        match p.functionResponse with
        | some fr =>
          ⟨none, none, some (jsOrStr fr.name "unknown",
            fr.response.getD (FnRespVal.obj none none none "\x7b\x7d"))⟩
        | none => ⟨none, none, none⟩

structure OAIFunctionPayload where
  name : String
  arguments : String

/-- A tool call attached to an outgoing assistant message. -/
structure OAIToolCallOut where
  id : String
  type : String
  function : OAIFunctionPayload

/-- An outgoing OpenAI chat message. -/
structure OAIMessageWithTools where
  role : String
  content : String
  tool_calls : Option (List OAIToolCallOut)
  tool_call_id : Option String

/-- The per-content-item loop state: accumulated newline-joined text, the
tool calls of the message under construction, the tool messages pushed so
far, and the fresh-id counter (each `call_${Date.now()}_${random}` template
draws the next id from the supply). -/
structure ConvAcc where
  textContent : String
  toolCalls : List OAIToolCallOut
  msgs : List OAIMessageWithTools
  k : Nat

/-- One iteration of the parts loop: truthy text is newline-joined; a
functionCall pushes a tool-call object with a FRESH id; a functionResponse
pushes a `tool` message whose `tool_call_id` is another FRESH id. -/
def processPart (jstringify : JsonVal → String) (idSupply : Nat → String)
    (acc : ConvAcc) (part : GPartU) : ConvAcc :=
  let extracted := extractFromPartUnion part
  let acc1 :=
    match extracted.text with
    | some t =>
      if t.isEmpty then acc
      else { acc with textContent :=
        acc.textContent ++ (if acc.textContent.isEmpty then "" else "\n") ++ t }
    | none => acc
  let acc2 :=
    match extracted.functionCall with
    | some (nm, args) =>
      { acc1 with
          toolCalls := acc1.toolCalls ++
            [{ id := idSupply acc1.k, type := "function",
               function := { name := nm, arguments := jstringify args } }],
          k := acc1.k + 1 }
    | none => acc1
  match extracted.functionResponse with
  | some (_, resp) =>
    { acc2 with
        msgs := acc2.msgs ++
          [{ role := "tool", content := renderFunctionResponse resp,
             tool_calls := none, tool_call_id := some (idSupply acc2.k) }],
        k := acc2.k + 1 }
  | none => acc2

/-- Conversion of a single Content: the tool messages pushed during the
parts loop (in order), then the main message with the joined text and the
accumulated tool calls (only when non-empty). -/
def convertContentItem (jstringify : JsonVal → String) (idSupply : Nat → String)
    (k : Nat) (contentItem : GContent) : List OAIMessageWithTools × Nat :=
  let acc := contentItem.parts.foldl (processPart jstringify idSupply) ⟨"", [], [], k⟩
  let message : OAIMessageWithTools :=
    { role := if contentItem.role = "model" then "assistant" else contentItem.role,
      content := acc.textContent,
      tool_calls := if acc.toolCalls.isEmpty then none else some acc.toolCalls,
      tool_call_id := none }
  (acc.msgs ++ [message], acc.k)

/-- `convertToOpenAIMessagesWithTools(contents)`. -/
def convertToOpenAIMessagesWithTools (jstringify : JsonVal → String)
    (idSupply : Nat → String) (contents : ContentsU) : List OAIMessageWithTools :=
  match contents with
  | .str s => [{ role := "user", content := s, tool_calls := none, tool_call_id := none }]
  | .single c => (convertContentItem jstringify idSupply 0 c).1
  | .many items =>
    (items.foldl (fun (p : List OAIMessageWithTools × Nat) item =>
      match item with
      | .prim s =>
        (p.1 ++ [{ role := "user", content := s, tool_calls := none, tool_call_id := none }],
         p.2)
      | .content c =>
        let r := convertContentItem jstringify idSupply p.2 c
        (p.1 ++ r.1, r.2)) ([], 0)).1

/-- An assistant functionCall part named `f`. -/
def c9CallPart : GPart :=
  { text := none,
    functionCall := some ({ name := some "f", args := some (JsonVal.jobj []) }),
    functionResponse := none }

/-- The later functionResponse part answering `f`. -/
def c9RespPart : GPart :=
  { text := none, functionCall := none,
    functionResponse := some ({ name := some "f", response := some (FnRespVal.str "ok") }) }

/-- A history in which an assistant functionCall is answered by a
functionResponse. -/
def c9History : ContentsU :=
  .many [.content { role := "model", parts := [GPartU.part c9CallPart] },
         .content { role := "user", parts := [GPartU.part c9RespPart] }]

def jstringify0 : JsonVal → String := fun _ => "\x7b\x7d"

def idSupply0 : Nat → String := fun n => "call_" ++ toString n

/-! ## Observables used by the claims about the stream -/

/-- Concatenated text of a part list. -/
def textOfParts : List Part → String
  | [] => ""
  | Part.text s :: rest => s ++ textOfParts rest
  | Part.functionCall _ _ :: rest => textOfParts rest

def textOfCands : List Candidate → String
  | [] => ""
  | c :: rest => textOfParts c.parts ++ textOfCands rest

def textOfResponse (r : GenResponse) : String := textOfCands r.candidates

def textOfResponses : List GenResponse → String
  | [] => ""
  | r :: rest => textOfResponse r ++ textOfResponses rest

/-- The text increment a frame contributes to the accumulated completion:
its `delta.content` (empty when absent or when the frame is skipped). -/
def frameText (ch : StreamChunk) : String :=
  match ch.choices with
  | some (c0 :: _) =>
    match c0.delta with
    | some d => optStr d.content
    | none => ""
  | _ => ""

/-- Concatenation of the text increments of a frame sequence. -/
def framesText : List StreamChunk → String
  | [] => ""
  | ch :: rest => frameText ch ++ framesText rest

/-- Concatenation of a fragment list (the un-fragmented original). -/
def joinFrags : List String → String
  | [] => ""
  | s :: rest => s ++ joinFrags rest

/-- A frame carrying no tool-call fragments. -/
def chunkHasNoToolDeltas (ch : StreamChunk) : Bool :=
  match ch.choices with
  | some (c0 :: _) =>
    match c0.delta with
    | some d =>
      match d.tool_calls with
      | none => true
      | some l => l.isEmpty
    | none => true
  | _ => true

/-- A frame carrying no provider usage report (neither chunk- nor
choice-level). -/
def chunkHasNoUsage (ch : StreamChunk) : Bool :=
  ch.usage.isNone &&
  (match ch.choices with
   | some (c0 :: _) => c0.usage.isNone
   | _ => true)

/-- A terminal event: some candidate carries a non-empty finish reason. -/
def isTerminal (r : GenResponse) : Bool :=
  r.candidates.any (fun c =>
    match c.finishReason with
    | some s => !s.isEmpty
    | none => false)

def countTerminal (l : List GenResponse) : Nat :=
  (l.filter isTerminal).length

/-- A tool-call delta at index 0 carrying a name and/or argument fragment. -/
def toolFragDelta (nf af : Option String) : StreamToolCallDelta :=
  { index := some 0, id := none, function := some ({ name := nf, arguments := af }) }

/-- A stream frame carrying exactly one tool-call fragment at index 0. -/
def toolFragChunk (nf af : Option String) : StreamChunk :=
  { choices := some [{ delta := some ({ content := none,
                                        tool_calls := some [toolFragDelta nf af] }),
                       finish_reason := none, usage := none }],
    usage := none, model := none }

/-- A finish frame with no content and no tool fragments. -/
def finishChunk (reason : String) : StreamChunk :=
  { choices := some [{ delta := some ({ content := none, tool_calls := none }),
                       finish_reason := some reason, usage := none }],
    usage := none, model := none }

/-- A freshly initialized accumulator slot after its first fragment. -/
def initSlot (id : String) (nf af : Option String) : AccumulatedToolCall :=
  { id := id, type := "function", function := { name := optStr nf, arguments := optStr af } }

/-- A slot with name and argument fragments appended. -/
def fragged (tc : AccumulatedToolCall) (n a : String) : AccumulatedToolCall :=
  { tc with function := { name := tc.function.name ++ n,
                          arguments := tc.function.arguments ++ a } }

/-- An environment whose parser accepts exactly the two-character text
`\x7b\x7d` (an empty JSON object). -/
def envBrace : StreamEnv :=
  { jparse := fun s => if s = "\x7b\x7d" then some (JsonVal.jobj []) else none,
    encLen := String.length,
    idSupply := fun n => "call_" ++ toString n,
    promptContent := "", modelName := "m" }

/-- A default concrete environment for closed evaluations. -/
def envDefault : StreamEnv :=
  { jparse := fun _ => none, encLen := String.length,
    idSupply := fun n => "call_" ++ toString n,
    promptContent := "", modelName := "m" }

/-- The usage invariant claimed by the spec: total equals prompt plus
completion, all non-negative. -/
def usageOk (u : UsageMetadata) : Prop :=
  u.totalTokenCount = u.promptTokenCount + u.candidatesTokenCount ∧
  0 ≤ u.promptTokenCount ∧ 0 ≤ u.candidatesTokenCount ∧ 0 ≤ u.totalTokenCount

/-- A terminal content frame whose provider usage report is inconsistent
(total 5, prompt 1, completion 1). -/
def c7Chunk : StreamChunk :=
  { choices := some [{ delta := some ({ content := some "hi", tool_calls := none }),
                       finish_reason := some "stop", usage := none }],
    usage := some ({ prompt_tokens := some 1, completion_tokens := some 1,
                     total_tokens := some 5 }),
    model := none }

/-- A part that is a function call with a non-empty name. -/
def partIsNamedCall : Part → Bool
  | .functionCall n _ => !n.isEmpty
  | .text _ => false

/-- A frame carrying only a finish marker: no content, no tool deltas. -/
def c1FinishOnlyChunk : StreamChunk :=
  { choices := some [{ delta := some ({ content := none, tool_calls := none }),
                       finish_reason := some "stop", usage := none }],
    usage := none, model := none }

/-- A content frame not followed by any finish marker (abrupt stream end). -/
def c1AbruptChunk : StreamChunk :=
  { choices := some [{ delta := some ({ content := some "Hello", tool_calls := none }),
                       finish_reason := none, usage := none }],
    usage := none, model := none }

/-- The spec's streaming scenario: `"Hel"`, `"lo"`, then a finish-only
frame. -/
def c2WitnessChunks : List StreamChunk :=
  [{ choices := some [{ delta := some ({ content := some "Hel", tool_calls := none }),
                        finish_reason := none, usage := none }],
     usage := none, model := none },
   { choices := some [{ delta := some ({ content := some "lo", tool_calls := none }),
                        finish_reason := none, usage := none }],
     usage := none, model := none },
   c1FinishOnlyChunk]

/-- An accumulated slot with a name but an unparsable argument buffer. -/
def c4Slot : AccumulatedToolCall :=
  { id := "id0", type := "function", function := { name := "g", arguments := "bad" } }

/-- An accumulated slot whose name never arrived but whose argument buffer is
non-empty and unparsable. -/
def c4CexSlot : AccumulatedToolCall :=
  { id := "id1", type := "function", function := { name := "", arguments := "notjson" } }

def c4BatchToolCall : OpenAIToolCall :=
  { id := none, type := "function", function := { name := "g", arguments := some "bad" } }

def c4BatchMessage : OpenAICompletionMessage :=
  { content := none, tool_calls := some [c4BatchToolCall] }

def c4BatchChoice : OpenAIChoice :=
  { message := some c4BatchMessage, finish_reason := some "tool_calls" }

def c4BatchResponse : OpenAICompletionResponse :=
  { choices := some [c4BatchChoice], model := none, usage := none }

/-- Slots for the C10 witness: a nameless slot with a non-empty buffer and a
named slot. -/
def c10Slots : List (Option AccumulatedToolCall) :=
  [some { id := "a", type := "function", function := { name := "", arguments := "xyz" } },
   some { id := "b", type := "function", function := { name := "f", arguments := "" } }]

/-- C8: when fallback mode is active, `getEffectiveModel` downgrades every
resolution to the lightweight default (`gemini-2.5-flash`) except that a
resolution whose name contains `"lite"` is returned unchanged; in particular
the `pro` alias resolves to the lightweight default and the `flash-lite`
alias to the lite model itself. -/
theorem c8_fallback_mode_asymmetry (requestedModel : String) (preview : Option Bool) :
    (jsIncludes (resolveModel requestedModel preview) "lite" = true →
      getEffectiveModel true requestedModel preview = resolveModel requestedModel preview) ∧
    (jsIncludes (resolveModel requestedModel preview) "lite" = false →
      getEffectiveModel true requestedModel preview = DEFAULT_GEMINI_FLASH_MODEL) ∧
    getEffectiveModel true GEMINI_MODEL_ALIAS_PRO preview = DEFAULT_GEMINI_FLASH_MODEL ∧
    getEffectiveModel true GEMINI_MODEL_ALIAS_FLASH_LITE preview = DEFAULT_GEMINI_FLASH_LITE_MODEL := by
  refine ⟨fun h => ?_, fun h => ?_, ?_, ?_⟩
  · simp [getEffectiveModel, h]
  · simp [getEffectiveModel, h]
  · rcases preview with _ | b
    · decide
    · cases b <;> decide
  · rcases preview with _ | b
    · decide
    · cases b <;> decide

/-- Witness for C8: at the concrete aliases `flash-lite` and `pro` (no
preview flag), the hypotheses of `c8_fallback_mode_asymmetry` are
discharged by computation. -/
theorem c8_fallback_mode_asymmetry_witness :
    getEffectiveModel true "flash-lite" none = resolveModel "flash-lite" none ∧
    getEffectiveModel true "pro" none = DEFAULT_GEMINI_FLASH_MODEL :=
  ⟨(c8_fallback_mode_asymmetry "flash-lite" none).1 (by decide),
   (c8_fallback_mode_asymmetry "pro" none).2.2.1⟩

/-- Helper: the tool-call parts vanish when no call has `type === 'function'`. -/
theorem toolParts_nil_of_no_func (jparse : String → Option JsonVal)
    (calls : List OpenAIToolCall)
    (h : calls.filter (fun tc => tc.type = "function") = []) :
    calls.filterMap (fun tc =>
      if tc.type = "function" then
        some (Part.functionCall tc.function.name
          (parseArgsJS jparse (optStr tc.function.arguments)))
      else none) = [] := by
  induction calls with
  | nil => rfl
  | cons a t ih =>
    rw [List.filter_cons] at h
    by_cases hp : a.type = "function"
    · rw [if_pos (by simp [hp])] at h
      exact absurd h (List.cons_ne_nil a _)
    · rw [if_neg (by simp [hp])] at h
      simp only [List.filterMap_cons, hp, if_false]
      exact ih h

/-- Helper: the synthetic error candidate produced for a missing or empty
`choices` array. -/
theorem convert_error_candidates (jparse : String → Option JsonVal)
    (response : OpenAICompletionResponse)
    (h : response.choices = none ∨ response.choices = some []) :
    (convertToGenerateContentResponse jparse response).candidates =
      [{ role := "model",
         parts := [Part.text "Error: Invalid response from OpenAI API"],
         finishReason := some "STOP", index := 0 }] := by
  rcases h with h | h <;> simp [convertToGenerateContentResponse, h]

/-- C5 (amended): batch normalization is total and always returns exactly one
candidate with a non-empty parts list; missing or empty `choices` yields the
synthetic error text with finishReason STOP; when the first choice carries no
text and no function-typed tool call at all, a single empty text part is
emitted.  (An unparsable tool call still contributes a functionCall part, so
it does not fall under the empty-text default.) -/
theorem c5_batch_normalization_total (jparse : String → Option JsonVal)
    (response : OpenAICompletionResponse) :
    (convertToGenerateContentResponse jparse response).candidates.length = 1 ∧
    (∀ c ∈ (convertToGenerateContentResponse jparse response).candidates, c.parts ≠ []) ∧
    ((response.choices = none ∨ response.choices = some []) →
      (convertToGenerateContentResponse jparse response).candidates =
        [{ role := "model",
           parts := [Part.text "Error: Invalid response from OpenAI API"],
           finishReason := some "STOP", index := 0 }]) ∧
    (∀ c0 rest, response.choices = some (c0 :: rest) →
      textOfChoice c0 = "" → funcCallsOfChoice c0 = [] →
      (convertToGenerateContentResponse jparse response).candidates.map Candidate.parts =
        [[Part.text ""]]) := by
  refine ⟨?_, ?_, convert_error_candidates jparse response, ?_⟩
  · rcases hch : response.choices with _ | ⟨_ | ⟨c0, rest⟩⟩ <;>
      simp [convertToGenerateContentResponse, hch]
  · intro c hc
    rcases hch : response.choices with _ | ⟨_ | ⟨c0, rest⟩⟩ <;>
        simp only [convertToGenerateContentResponse, hch, List.mem_singleton] at hc <;>
        subst hc
    · simp
    · simp
    · rcases hbp : batchParts jparse c0 with _ | ⟨p, ps⟩ <;> simp [hbp]
  · intro c0 rest hch ht hf
    have hparts : batchParts jparse c0 = [] := by
      rcases hm : c0.message with _ | m
      · simp [batchParts, hm]
      · have h1 : batchTextParts m = [] := by
          rcases hmc : m.content with _ | mc
          · simp [batchTextParts, hmc]
          · by_cases hct : contentTruthy mc
            · have hext : extractTextContent mc = "" := by
                simp only [textOfChoice, hm, hmc, hct, if_true] at ht
                exact ht
              have hemp : (extractTextContent mc).isEmpty = true := by
                rw [hext]
                rfl
              simp [batchTextParts, hmc, hct, hemp]
            · simp [batchTextParts, hmc, hct]
        have h2 : batchToolParts jparse m = [] := by
          rcases htc : m.tool_calls with _ | calls
          · simp [batchToolParts, htc]
          · have hcalls : calls.filter (fun tc => tc.type = "function") = [] := by
              simp only [funcCallsOfChoice, hm, htc, Option.getD_some] at hf
              exact hf
            simp only [batchToolParts, htc]
            exact toolParts_nil_of_no_func jparse calls hcalls
        simp [batchParts, hm, h1, h2]
    simp [convertToGenerateContentResponse, hch, hparts]

/-- Witness for C5: a response whose only choice has no message yields the
single empty text part, and a response with `choices: []` yields the
synthetic error candidate. -/
theorem c5_batch_normalization_total_witness :
    (convertToGenerateContentResponse (fun _ => none)
      { choices := some [{ message := none, finish_reason := some "stop" }],
        model := none, usage := none }).candidates.map Candidate.parts = [[Part.text ""]] ∧
    (convertToGenerateContentResponse (fun _ => none)
      { choices := some [], model := none, usage := none }).candidates =
      [{ role := "model",
         parts := [Part.text "Error: Invalid response from OpenAI API"],
         finishReason := some "STOP", index := 0 }] :=
  ⟨(c5_batch_normalization_total (fun _ => none) _).2.2.2
      { message := none, finish_reason := some "stop" } [] rfl rfl rfl,
   (c5_batch_normalization_total (fun _ => none) _).2.2.1 (Or.inr rfl)⟩

/-- The concrete batch response refuting the literal reading of C5: no text,
one tool call whose arguments do not parse. -/
def c5CexToolCall : OpenAIToolCall :=
  { id := none, type := "function", function := { name := "f", arguments := some "oops" } }

def c5CexChoice : OpenAIChoice :=
  { message := some ({ content := none, tool_calls := some [c5CexToolCall] }),
    finish_reason := some "stop" }

def c5CexResponse : OpenAICompletionResponse :=
  { choices := some [c5CexChoice], model := none, usage := none }

/-- Counterexample to C5 as stated: with no text and no *parsable* tool call
(the parser rejects every string here), the emitted parts are a functionCall
part with empty-object arguments, not a single empty text part. -/
theorem c5_counterexample :
    textOfChoice c5CexChoice = "" ∧
    ((fun _ => none : String → Option JsonVal) "oops" = none) ∧
    (convertToGenerateContentResponse (fun _ => none) c5CexResponse).candidates.map
        Candidate.parts = [[Part.functionCall "f" (JsonVal.jobj [])]] ∧
    (convertToGenerateContentResponse (fun _ => none) c5CexResponse).candidates.map
        Candidate.parts ≠ [[Part.text ""]] := by
  refine ⟨rfl, rfl, rfl, ?_⟩
  intro h
  have h' : ([[Part.functionCall "f" (JsonVal.jobj [])]] : List (List Part)) =
      [[Part.text ""]] := h
  injection h' with ha _
  injection ha with hb _
  cases hb

/-- The concrete batch response exhibiting the unmapped finish reason for C6. -/
def c6Response : OpenAICompletionResponse :=
  { choices := some [{ message := some { content := some (.str "hi"), tool_calls := none },
                       finish_reason := some "length" }],
    model := none, usage := none }

/-- C6: the batch normalizer passes the provider finish string through a bare
cast instead of `mapFinishReason`: a batch response finishing with `length`
is emitted with finishReason `"length"`, which is outside the canonical enum,
even though `mapFinishReason` itself maps `length` to MAX_TOKENS exactly as
the claim states. -/
theorem c6_raw_finish_reason_leak :
    (convertToGenerateContentResponse (fun _ => none) c6Response).candidates.map
        Candidate.finishReason = [some "length"] ∧
    ("length" : String) ∉ ["STOP", "MAX_TOKENS", "SAFETY", "OTHER"] ∧
    mapFinishReason (some "length") = some "MAX_TOKENS" ∧
    mapFinishReason (some "stop") = some "STOP" ∧
    mapFinishReason (some "content_filter") = some "SAFETY" ∧
    mapFinishReason (some "tool_calls") = some "STOP" ∧
    mapFinishReason (some "function_call") = some "STOP" ∧
    mapFinishReason (some "weird_reason") = some "OTHER" := by
  refine ⟨rfl, by decide, by decide, by decide, by decide, by decide, by decide, by decide⟩

/-- C1: refuted on the code.  A stream consisting of a single finish-only
frame (zero content frames, explicit finish marker) emits TWO terminal
events, both with finish reason STOP: the empty-content branch yields a
terminal event without setting `hasYielded`, so the post-loop fallback fires
again.  A stream of one content frame that ends abruptly without a finish
marker emits no terminal event at all: the only emitted event is
non-terminal and the fallback is suppressed by `hasYielded`. -/
theorem c1_terminal_event_miscount :
    countTerminal (generateContentStream envDefault [c1FinishOnlyChunk]).1 = 2 ∧
    (generateContentStream envDefault [c1FinishOnlyChunk]).1.map
        (fun r => r.candidates.map Candidate.finishReason) = [[some "STOP"], [some "STOP"]] ∧
    countTerminal (generateContentStream envDefault [c1AbruptChunk]).1 = 0 ∧
    (generateContentStream envDefault [c1AbruptChunk]).1.map
        (fun r => r.candidates.map Candidate.finishReason) = [[none]] := by
  decide

/-- C10: every part emitted by the streaming finalize loop is a function call
with a non-empty name, and the number of emitted parts equals the number of
filled slots with a non-empty accumulated name — a slot whose name fragments
never arrived produces no part, whatever its argument buffer holds. -/
theorem c10_empty_name_slots_dropped (jparse : String → Option JsonVal)
    (slots : List (Option AccumulatedToolCall)) (parts : List Part)
    (h : finalizeToolCalls jparse slots = .ok parts) :
    (∀ p ∈ parts, partIsNamedCall p = true) ∧
    parts.length =
      (slots.reduceOption.filter (fun tc => !tc.function.name.isEmpty)).length := by
  induction slots generalizing parts with
  | nil =>
    simp only [finalizeToolCalls, Except.ok.injEq] at h
    subst h
    exact ⟨(by intro p hp; cases hp), rfl⟩
  | cons o rest ih =>
    match o with
    | none => simp [finalizeToolCalls] at h
    | some tc =>
      simp only [finalizeToolCalls] at h
      rcases hrec : finalizeToolCalls jparse rest with e | ps <;> rw [hrec] at h <;>
        dsimp only at h
      · cases h
      · by_cases hn : tc.function.name.isEmpty
        · rw [if_pos hn] at h
          injection h with h
          subst h
          obtain ⟨ih1, ih2⟩ := ih ps hrec
          refine ⟨ih1, ?_⟩
          rw [List.reduceOption_cons_of_some, List.filter_cons]
          simp only [hn, Bool.not_true, if_false]
          exact ih2
        · rw [if_neg hn] at h
          injection h with h
          subst h
          obtain ⟨ih1, ih2⟩ := ih ps hrec
          constructor
          · intro p hp
            rcases List.mem_cons.mp hp with hp | hp
            · subst hp
              simp only [partIsNamedCall]
              simp [hn]
            · exact ih1 p hp
          · rw [List.reduceOption_cons_of_some, List.filter_cons]
            simp only [hn, Bool.not_false, if_true, List.length_cons, ih2]

/-- Witness for C10: finalizing a nameless slot with a non-empty buffer and a
named slot yields exactly the one named part. -/
theorem c10_empty_name_slots_dropped_witness :
    (∀ p ∈ [Part.functionCall "f" (JsonVal.jobj [])], partIsNamedCall p = true) ∧
    ([Part.functionCall "f" (JsonVal.jobj [])] : List Part).length =
      (c10Slots.reduceOption.filter (fun tc => !tc.function.name.isEmpty)).length :=
  c10_empty_name_slots_dropped (fun _ => none) c10Slots _ rfl

/-- C4 (amended): when every slot of the streaming accumulator was actually
initialized (no index was skipped, so the sparse array has no holes), the
finalize loop throws no exception, and every accumulated tool call with a
NON-EMPTY name whose argument buffer fails to parse is still emitted with
the empty-object argument set; in the batch path every function-typed tool
call with unparsable arguments is likewise emitted with empty-object
arguments, with no exception.  (In the streaming path a slot whose name is
empty is dropped regardless of its buffer, and an accumulator with a hole —
a fragment arriving only at index >= 1 — makes the finalize loop throw, so
no call is emitted at all; see the counterexample.) -/
theorem c4_unparsable_args_kept :
    (∀ (jparse : String → Option JsonVal) (slots : List (Option AccumulatedToolCall)),
       (∀ o ∈ slots, o ≠ none) →
       ∃ parts, finalizeToolCalls jparse slots = .ok parts ∧
         ∀ tc : AccumulatedToolCall, some tc ∈ slots →
           ¬ tc.function.name.isEmpty →
           jparse (if tc.function.arguments.isEmpty then "\x7b\x7d"
             else tc.function.arguments) = none →
           Part.functionCall tc.function.name (JsonVal.jobj []) ∈ parts) ∧
    (∀ (jparse : String → Option JsonVal) (slots : List (Option AccumulatedToolCall)),
       (none : Option AccumulatedToolCall) ∈ slots →
       finalizeToolCalls jparse slots = .error ()) ∧
    (∀ (jparse : String → Option JsonVal) (response : OpenAICompletionResponse)
       (c0 : OpenAIChoice) (rest : List OpenAIChoice) (m : OpenAICompletionMessage)
       (tcall : OpenAIToolCall),
       response.choices = some (c0 :: rest) →
       c0.message = some m →
       tcall ∈ m.tool_calls.getD [] →
       tcall.type = "function" →
       jparse (if (optStr tcall.function.arguments).isEmpty then "\x7b\x7d"
         else optStr tcall.function.arguments) = none →
       ∃ c, (convertToGenerateContentResponse jparse response).candidates = [c] ∧
         Part.functionCall tcall.function.name (JsonVal.jobj []) ∈ c.parts) := by
  refine ⟨?_, ?_, ?_⟩
  · intro jparse slots
    induction slots with
    | nil =>
      intro _
      exact ⟨[], rfl, by intro tc h; cases h⟩
    | cons o rest ih =>
      intro hno
      match o with
      | none => exact absurd rfl (hno none (List.mem_cons_self none rest))
      | some tc' =>
        obtain ⟨ps, hok, hmem⟩ := ih (fun x hx => hno x (List.mem_cons_of_mem _ hx))
        by_cases hn : tc'.function.name.isEmpty
        · refine ⟨ps, ?_, ?_⟩
          · simp only [finalizeToolCalls]
            rw [hok]
            dsimp only
            rw [if_pos hn]
          · intro tc hmem' hname hfail
            rcases List.mem_cons.mp hmem' with heq | hmem''
            · injection heq with heq
              subst heq
              exact absurd hn hname
            · exact hmem tc hmem'' hname hfail
        · refine ⟨Part.functionCall tc'.function.name
              (parseArgsJS jparse tc'.function.arguments) :: ps, ?_, ?_⟩
          · simp only [finalizeToolCalls]
            rw [hok]
            dsimp only
            rw [if_neg hn]
          · intro tc hmem' hname hfail
            rcases List.mem_cons.mp hmem' with heq | hmem''
            · injection heq with heq
              subst heq
              have hargs : parseArgsJS jparse tc.function.arguments = JsonVal.jobj [] := by
                rw [parseArgsJS, hfail]
              rw [hargs]
              exact List.mem_cons_self _ _
            · exact List.mem_cons_of_mem _ (hmem tc hmem'' hname hfail)
  · intro jparse slots
    induction slots with
    | nil =>
      intro hmem
      cases hmem
    | cons o rest ih =>
      intro hmem
      rcases List.mem_cons.mp hmem with heq | hmem'
      · rw [← heq]
        rfl
      · have h := ih hmem'
        cases o with
        | none => rfl
        | some tc =>
          simp only [finalizeToolCalls]
          rw [h]
  · intro jparse response c0 rest m tcall hch hm htc hty hfail
    rcases hcalls : m.tool_calls with _ | calls
    · rw [hcalls] at htc
      cases htc
    · rw [hcalls, Option.getD_some] at htc
      have hpart : Part.functionCall tcall.function.name (JsonVal.jobj []) ∈
          batchToolParts jparse m := by
        rw [batchToolParts, hcalls]
        rw [List.mem_filterMap]
        refine ⟨tcall, htc, ?_⟩
        rw [if_pos hty]
        have hargs : parseArgsJS jparse (optStr tcall.function.arguments) = JsonVal.jobj [] := by
          rw [parseArgsJS, hfail]
        rw [hargs]
      have hmem0 : Part.functionCall tcall.function.name (JsonVal.jobj []) ∈
          batchParts jparse c0 := by
        rw [batchParts, hm]
        exact List.mem_append_right _ hpart
      refine ⟨mkCandidate
        (if (batchParts jparse c0).isEmpty then [Part.text ""] else batchParts jparse c0)
        (some (rawFinishCast c0.finish_reason)), ?_, ?_⟩
      · simp [convertToGenerateContentResponse, hch, mkCandidate]
      · rcases hbp : batchParts jparse c0 with _ | ⟨p, ps⟩
        · rw [hbp] at hmem0
          cases hmem0
        · rw [hbp] at hmem0
          simpa [mkCandidate, hbp] using hmem0

/-- Witness for C4: the hole-free accumulator holding only the named slot `g`
with unparsable buffer `bad` finalizes without throwing and emits the call
with empty-object arguments; an accumulator with a hole at index 0 throws;
and the batch normalization of a concrete response emits the same call. -/
theorem c4_unparsable_args_kept_witness :
    finalizeToolCalls (fun _ => none) [some c4Slot] =
      .ok [Part.functionCall "g" (JsonVal.jobj [])] ∧
    Part.functionCall "g" (JsonVal.jobj []) ∈
      [Part.functionCall "g" (JsonVal.jobj [])] ∧
    finalizeToolCalls (fun _ => none) [none, some c4Slot] = .error () ∧
    (∃ c, (convertToGenerateContentResponse (fun _ => none) c4BatchResponse).candidates =
        [c] ∧ Part.functionCall "g" (JsonVal.jobj []) ∈ c.parts) := by
  refine ⟨rfl, ?_, ?_, ?_⟩
  · obtain ⟨parts, hok, hmem⟩ :=
      c4_unparsable_args_kept.1 (fun _ => none) [some c4Slot] (by simp)
    have h1 : Part.functionCall "g" (JsonVal.jobj []) ∈ parts :=
      hmem c4Slot (by simp) (by decide) rfl
    have h2 : parts = [Part.functionCall "g" (JsonVal.jobj [])] := by
      have h3 : (Except.ok parts : Except Unit (List Part)) =
          .ok [Part.functionCall "g" (JsonVal.jobj [])] := by
        rw [← hok]
        rfl
      injection h3
    exact h2 ▸ h1
  · exact c4_unparsable_args_kept.2.1 (fun _ => none) [none, some c4Slot] (by simp)
  · exact c4_unparsable_args_kept.2.2 (fun _ => none) c4BatchResponse c4BatchChoice []
      c4BatchMessage c4BatchToolCall rfl rfl (by simp [c4BatchMessage]) rfl rfl

/-- Counterexample to C4 as stated: first, an accumulated tool call whose
name never arrived but whose non-empty argument buffer fails to parse is
silently dropped by the streaming finalize loop — it is not emitted at all;
second, when the accumulator has a hole at index 0 (a fragment arrived only
at index 1), the finalize loop throws, so even the NAMED call `g` with an
unparsable buffer is not emitted and an exception IS thrown. -/
theorem c4_counterexample :
    (¬ c4CexSlot.function.arguments.isEmpty ∧
     ((fun _ => none : String → Option JsonVal) c4CexSlot.function.arguments = none) ∧
     finalizeToolCalls (fun _ => none) [some c4CexSlot] = .ok []) ∧
    (¬ c4Slot.function.name.isEmpty ∧
     ((fun _ => none : String → Option JsonVal) c4Slot.function.arguments = none) ∧
     finalizeToolCalls (fun _ => none) [none, some c4Slot] = .error ()) :=
  ⟨⟨by decide, rfl, rfl⟩, ⟨by decide, rfl, rfl⟩⟩

theorem textOfResponses_append (l1 l2 : List GenResponse) :
    textOfResponses (l1 ++ l2) = textOfResponses l1 ++ textOfResponses l2 := by
  induction l1 with
  | nil => simp [textOfResponses, String.empty_append]
  | cons r t ih => simp [textOfResponses, ih, String.append_assoc]

/-- Helper: processing a frame without tool-call fragments from a state with
an empty accumulator keeps the accumulator empty, never throws, and
contributes exactly the frame's text increment. -/
theorem stepChunk_noTools (env : StreamEnv) (st : StreamState) (ch : StreamChunk)
    (hnd : chunkHasNoToolDeltas ch = true) (hacc : st.accumulatedToolCalls = []) :
    (stepChunk env st ch).1.accumulatedToolCalls = [] ∧
    (stepChunk env st ch).2.2 = false ∧
    textOfResponses (stepChunk env st ch).2.1 = frameText ch := by
  rcases hch : ch.choices with _ | (_ | ⟨c0, cs⟩)
  · simp [stepChunk, hch, frameText, textOfResponses, hacc]
  · simp [stepChunk, hch, frameText, textOfResponses, hacc]
  · rcases hd : c0.delta with _ | delta
    · simp [stepChunk, hch, hd, frameText, textOfResponses, hacc]
    · have hnotools : delta.tool_calls = none ∨ delta.tool_calls = some [] := by
        simp only [chunkHasNoToolDeltas, hch, hd] at hnd
        rcases htc : delta.tool_calls with _ | l
        · exact Or.inl rfl
        · rw [htc] at hnd
          right
          rw [List.isEmpty_iff] at hnd
          rw [hnd]
      have hastep : ∀ k, (match delta.tool_calls with
          | some deltas => applyToolCallDeltas env.idSupply [] k deltas
          | none => ([], k)) = ([], k) := by
        intro k
        rcases hnotools with h | h <;> simp [h, applyToolCallDeltas]
      rcases hcv : delta.content with _ | s
      · rcases hfr : c0.finish_reason with _ | fr
        · simp [stepChunk, hch, hd, hacc, hcv, hfr, hastep, strTruthy, frameText,
            textOfResponses, optStr]
        · rcases Bool.eq_false_or_eq_true fr.isEmpty with hfe | hfe <;>
            simp [stepChunk, hch, hd, hacc, hcv, hfr, hastep, strTruthy, hfe, frameText,
              textOfResponses, textOfResponse, textOfCands, textOfParts, emptyContentResponse,
              mkCandidate, optStr, String.append_empty]
      · by_cases hse : s.isEmpty = true
        · have hs0 : s = "" := (String.isEmpty_iff s).mp hse
          subst hs0
          rcases hfr : c0.finish_reason with _ | fr
          · simp [stepChunk, hch, hd, hacc, hcv, hfr, hastep, strTruthy, frameText,
              textOfResponses, optStr]
          · rcases Bool.eq_false_or_eq_true fr.isEmpty with hfe | hfe <;>
              simp [stepChunk, hch, hd, hacc, hcv, hfr, hastep, strTruthy, hfe, frameText,
                textOfResponses, textOfResponse, textOfCands, textOfParts, emptyContentResponse,
                mkCandidate, optStr, String.append_empty]
        · rw [Bool.not_eq_true] at hse
          simp [stepChunk, hch, hd, hacc, hcv, hastep, strTruthy, hse, frameText,
            textOfResponses, textOfResponse, textOfCands, textOfParts, contentResponse,
            mkCandidate, optStr, String.append_empty]

/-- Helper: the loop over a stream without tool-call fragments keeps the
accumulator empty, never throws, and emits text equal to the concatenated
frame increments. -/
theorem foldChunks_noTools (env : StreamEnv) (chunks : List StreamChunk) (st : StreamState)
    (hnd : ∀ ch ∈ chunks, chunkHasNoToolDeltas ch = true)
    (hacc : st.accumulatedToolCalls = []) :
    (foldChunks env st chunks).1.accumulatedToolCalls = [] ∧
    (foldChunks env st chunks).2.2 = false ∧
    textOfResponses (foldChunks env st chunks).2.1 = framesText chunks := by
  induction chunks generalizing st with
  | nil => exact ⟨hacc, rfl, rfl⟩
  | cons ch rest ih =>
    obtain ⟨h1, h2, h3⟩ := stepChunk_noTools env st ch (hnd ch (List.mem_cons_self ch rest)) hacc
    obtain ⟨g1, g2, g3⟩ := ih (stepChunk env st ch).1
      (fun c hc => hnd c (List.mem_cons_of_mem ch hc)) h1
    refine ⟨?_, ?_, ?_⟩ <;>
      simp [foldChunks, h2, g1, g2, g3, h3, textOfResponses_append, framesText]

/-- C2: for a streamed text split across any number of frames (no tool-call
fragments), each frame with a non-empty increment yields exactly one event
whose single candidate carries only that increment, and the concatenation of
all emitted text equals the concatenation of the frame increments — no
duplication, no loss. -/
theorem c2_delta_not_cumulative (env : StreamEnv) (chunks : List StreamChunk)
    (hnd : ∀ ch ∈ chunks, chunkHasNoToolDeltas ch = true) :
    textOfResponses (generateContentStream env chunks).1 = framesText chunks ∧
    (∀ (st : StreamState) (ch : StreamChunk) (c0 : StreamChoice) (crest : List StreamChoice)
       (d : StreamDelta) (s : String),
       chunkHasNoToolDeltas ch = true → st.accumulatedToolCalls = [] →
       ch.choices = some (c0 :: crest) → c0.delta = some d → d.content = some s →
       s.isEmpty = false →
       ((stepChunk env st ch).2.1).map (fun r => r.candidates.map Candidate.parts) =
         [[[Part.text s]]]) := by
  constructor
  · obtain ⟨g1, g2, g3⟩ := foldChunks_noTools env chunks initialStreamState hnd rfl
    simp only [generateContentStream]
    rw [g2]
    rw [if_neg Bool.false_ne_true]
    split
    · rw [textOfResponses_append, g3]
      simp [textOfResponses, textOfResponse, textOfCands, textOfParts, fallbackResponse,
        mkCandidate, String.append_empty]
    · exact g3
  · intro st ch c0 crest d s hndc hacc hch hd hcv hse
    have hnotools : d.tool_calls = none ∨ d.tool_calls = some [] := by
      simp only [chunkHasNoToolDeltas, hch, hd] at hndc
      rcases htc : d.tool_calls with _ | l
      · exact Or.inl rfl
      · rw [htc] at hndc
        right
        rw [List.isEmpty_iff] at hndc
        rw [hndc]
    have hastep : ∀ k, (match d.tool_calls with
        | some deltas => applyToolCallDeltas env.idSupply [] k deltas
        | none => ([], k)) = ([], k) := by
      intro k
      rcases hnotools with h | h <;> simp [h, applyToolCallDeltas]
    simp [stepChunk, hch, hd, hacc, hcv, hastep, strTruthy, hse, contentResponse,
      mkCandidate, optStr]

/-- Witness for C2: the scenario stream `["Hel", "lo", finish]` emits the
text `Hello` overall, and a single content frame emits exactly its own
increment. -/
theorem c2_delta_not_cumulative_witness :
    textOfResponses (generateContentStream envDefault c2WitnessChunks).1 =
      framesText c2WitnessChunks ∧
    ((stepChunk envDefault initialStreamState c1AbruptChunk).2.1).map
      (fun r => r.candidates.map Candidate.parts) = [[[Part.text "Hello"]]] := by
  constructor
  · exact (c2_delta_not_cumulative envDefault _ (by decide)).1
  · exact (c2_delta_not_cumulative envDefault [] (by simp)).2 initialStreamState
      c1AbruptChunk _ [] _ "Hello" (by decide) rfl rfl rfl rfl (by decide)

theorem estMeta_usageOk (encLen : String → Nat) (p c : String) :
    usageOk (estMeta encLen p c) := by
  refine ⟨?_, ?_, ?_, ?_⟩
  · simp [estMeta, estimateTotalTokens]
  · simp [estMeta, estimateTotalTokens]
  · simp [estMeta, estimateTotalTokens]
  · show (0 : Int) ≤ _
    simp only [estMeta, estimateTotalTokens]
    positivity

theorem usageProvOrEst_zero (env : StreamEnv) (completion : String) :
    usageProvOrEst env completion ⟨0, 0, 0⟩ =
      estMeta env.encLen env.promptContent completion := by
  simp [usageProvOrEst]

theorem contentResponse_usageOk (env : StreamEnv) (ch : StreamChunk) (c0 : StreamChoice)
    (compl cv : String) (fin : Bool) (u : UsageMetadata)
    (h : (contentResponse env ch c0 ⟨0, 0, 0⟩ compl cv fin).usageMetadata = some u) :
    usageOk u := by
  simp only [contentResponse] at h
  rw [if_neg (by simp)] at h
  by_cases hf : fin = true
  · rw [if_pos (by simp [hf])] at h
    injection h with h
    exact h ▸ estMeta_usageOk env.encLen env.promptContent compl
  · rw [if_neg (by simp [hf])] at h
    cases h

theorem emptyContentResponse_usageOk (env : StreamEnv) (ch : StreamChunk) (c0 : StreamChoice)
    (compl : String) (u : UsageMetadata)
    (h : (emptyContentResponse env ch c0 ⟨0, 0, 0⟩ compl).usageMetadata = some u) :
    usageOk u := by
  simp only [emptyContentResponse, usageProvOrEst_zero, Option.some.injEq] at h
  exact h ▸ estMeta_usageOk env.encLen env.promptContent compl

theorem toolCallResponse_usageOk (env : StreamEnv) (ch : StreamChunk) (c0 : StreamChoice)
    (compl : String) (tp : List Part) (u : UsageMetadata)
    (h : (toolCallResponse env ch c0 ⟨0, 0, 0⟩ compl tp).usageMetadata = some u) :
    usageOk u := by
  simp only [toolCallResponse, usageProvOrEst_zero, Option.some.injEq] at h
  exact h ▸ estMeta_usageOk env.encLen env.promptContent compl

/-- Helper: a frame without a provider usage report keeps the zero usage
snapshot, and every response it emits carries either no usage or the local
estimate, which satisfies the invariant. -/
theorem stepChunk_noUsage (env : StreamEnv) (st : StreamState) (ch : StreamChunk)
    (hnu : chunkHasNoUsage ch = true) (hu : st.accumulatedUsage = ⟨0, 0, 0⟩) :
    (stepChunk env st ch).1.accumulatedUsage = ⟨0, 0, 0⟩ ∧
    (∀ r ∈ (stepChunk env st ch).2.1, ∀ u, r.usageMetadata = some u → usageOk u) := by
  rcases hch : ch.choices with _ | (_ | ⟨c0, cs⟩)
  · exact ⟨by simp [stepChunk, hch, hu], by simp [stepChunk, hch]⟩
  · exact ⟨by simp [stepChunk, hch, hu], by simp [stepChunk, hch]⟩
  · rcases hd : c0.delta with _ | delta
    · exact ⟨by simp [stepChunk, hch, hd, hu], by simp [stepChunk, hch, hd]⟩
    · have hz : usageFromChunk st.accumulatedUsage ch c0 = ⟨0, 0, 0⟩ := by
        simp only [chunkHasNoUsage, hch, Bool.and_eq_true, Option.isNone_iff_eq_none] at hnu
        simp [usageFromChunk, hnu.1, hnu.2, hu]
      constructor
      · simp only [stepChunk, hch, hd]
        rw [hz]
        split
        · split <;> rfl
        · rfl
      · intro r hr u hru
        simp only [stepChunk, hch, hd] at hr
        rw [hz] at hr
        split at hr
        · split at hr
          · dsimp only at hr
            split at hr
            · rw [List.mem_singleton] at hr
              subst hr
              exact contentResponse_usageOk env ch c0 _ _ _ u hru
            · split at hr
              · rw [List.mem_singleton] at hr
                subst hr
                exact emptyContentResponse_usageOk env ch c0 _ u hru
              · cases hr
          · dsimp only at hr
            rcases List.mem_append.mp hr with h | h
            · split at h
              · rw [List.mem_singleton] at h
                subst h
                exact contentResponse_usageOk env ch c0 _ _ _ u hru
              · split at h
                · rw [List.mem_singleton] at h
                  subst h
                  exact emptyContentResponse_usageOk env ch c0 _ u hru
                · cases h
            · rw [List.mem_singleton] at h
              subst h
              exact toolCallResponse_usageOk env ch c0 _ _ u hru
        · dsimp only at hr
          split at hr
          · rw [List.mem_singleton] at hr
            subst hr
            exact contentResponse_usageOk env ch c0 _ _ _ u hru
          · split at hr
            · rw [List.mem_singleton] at hr
              subst hr
              exact emptyContentResponse_usageOk env ch c0 _ u hru
            · cases hr

/-- Helper: over a stream with no provider usage reports, the usage snapshot
stays zero and every emitted usage object is the local estimate. -/
theorem foldChunks_noUsage (env : StreamEnv) (chunks : List StreamChunk) (st : StreamState)
    (hnu : ∀ ch ∈ chunks, chunkHasNoUsage ch = true)
    (hu : st.accumulatedUsage = ⟨0, 0, 0⟩) :
    (foldChunks env st chunks).1.accumulatedUsage = ⟨0, 0, 0⟩ ∧
    (∀ r ∈ (foldChunks env st chunks).2.1, ∀ u, r.usageMetadata = some u → usageOk u) := by
  induction chunks generalizing st with
  | nil => exact ⟨hu, by simp [foldChunks]⟩
  | cons ch rest ih =>
    obtain ⟨h1, h2⟩ := stepChunk_noUsage env st ch (hnu ch (List.mem_cons_self ch rest)) hu
    obtain ⟨g1, g2⟩ := ih (stepChunk env st ch).1
      (fun c hc => hnu c (List.mem_cons_of_mem ch hc)) h1
    constructor
    · by_cases hcr : (stepChunk env st ch).2.2 = true
      · simp [foldChunks, hcr, h1]
      · rw [Bool.not_eq_true] at hcr
        simp [foldChunks, hcr, g1]
    · intro r hr u hru
      by_cases hcr : (stepChunk env st ch).2.2 = true
      · simp only [foldChunks, hcr, if_true] at hr
        exact h2 r hr u hru
      · rw [Bool.not_eq_true] at hcr
        simp only [foldChunks, hcr, Bool.false_eq_true, if_false] at hr
        rcases List.mem_append.mp hr with h | h
        · exact h2 r h u hru
        · exact g2 r h u hru

/-- C7 (amended): every locally-estimated usage object satisfies
`totalTokens = promptTokens + completionTokens` with all three non-negative;
in particular, over any stream in which the provider never reports usage,
every emitted usage object satisfies the invariant.  (A provider-supplied
usage report is copied verbatim, so the invariant holds there only if the
provider's numbers satisfy it — see the counterexample.) -/
theorem c7_usage_invariant (env : StreamEnv) (chunks : List StreamChunk)
    (hnu : ∀ ch ∈ chunks, chunkHasNoUsage ch = true) :
    (∀ r ∈ (generateContentStream env chunks).1, ∀ u, r.usageMetadata = some u → usageOk u) ∧
    (∀ p c, usageOk (estMeta env.encLen p c)) ∧
    (∀ p c, (estimateTotalTokens env.encLen p c).totalTokens =
      (estimateTotalTokens env.encLen p c).promptTokens +
        (estimateTotalTokens env.encLen p c).completionTokens) := by
  refine ⟨?_, fun p c => estMeta_usageOk env.encLen p c, fun p c => rfl⟩
  intro r hr u hru
  obtain ⟨g1, g2⟩ := foldChunks_noUsage env chunks initialStreamState hnu rfl
  simp only [generateContentStream] at hr
  split at hr
  · exact g2 r hr u hru
  · split at hr
    · dsimp only at hr
      rcases List.mem_append.mp hr with h | h
      · exact g2 r h u hru
      · rw [List.mem_singleton] at h
        subst h
        simp only [fallbackResponse, g1, usageProvOrEst_zero, Option.some.injEq] at hru
        exact hru ▸ estMeta_usageOk env.encLen env.promptContent _
    · exact g2 r hr u hru

/-- Witness for C7: the empty stream's fallback event carries the estimated
usage `⟨0,0,0⟩`, which satisfies the invariant, as does the estimate over
concrete strings. -/
theorem c7_usage_invariant_witness :
    usageOk ⟨(0 : Int), 0, 0⟩ ∧ usageOk (estMeta envDefault.encLen "abc" "de") :=
  ⟨(c7_usage_invariant envDefault [] (by simp)).1
      (fallbackResponse envDefault initialStreamState) (List.mem_singleton_self _)
      ⟨0, 0, 0⟩ rfl,
   (c7_usage_invariant envDefault [] (by simp)).2.1 "abc" "de"⟩

/-- Counterexample to C7 as stated: a provider-supplied usage report with
`total ≠ prompt + completion` is copied verbatim into the emitted event. -/
theorem c7_counterexample :
    (generateContentStream envDefault [c7Chunk]).1.map GenResponse.usageMetadata =
      [some ⟨1, 1, 5⟩] ∧ ¬ ((5 : Int) = 1 + 1) := by
  decide

theorem appendIfTruthy_eq (b : String) (o : Option String) :
    appendIfTruthy b o = b ++ optStr o := by
  rcases o with _ | s
  · simp [appendIfTruthy, optStr, String.append_empty]
  · simp only [appendIfTruthy, optStr, Option.getD_some]
    by_cases h : s.isEmpty = true
    · have hs := (String.isEmpty_iff s).mp h
      subst hs
      simp [String.append_empty]
    · rw [Bool.not_eq_true] at h
      simp [h]

theorem fragged_fragged (tc : AccumulatedToolCall) (n1 a1 n2 a2 : String) :
    fragged (fragged tc n1 a1) n2 a2 = fragged tc (n1 ++ n2) (a1 ++ a2) := by
  simp [fragged, String.append_assoc]

theorem fragged_empty (tc : AccumulatedToolCall) : fragged tc "" "" = tc := by
  simp [fragged, String.append_empty]

/-- Helper: a fragment delta creates the slot at index 0 on first touch, with
a fresh id and the fragments as initial name/arguments. -/
theorem applyToolCallDelta_init (idSupply : Nat → String) (k : Nat) (nf af : Option String) :
    applyToolCallDelta idSupply [] k (toolFragDelta nf af) =
      ([some (initSlot (idSupply k) nf af)], k + 1) := by
  simp [applyToolCallDelta, toolFragDelta, jsArrayGet, jsArraySet, appendIfTruthy_eq,
    initSlot, String.empty_append]

/-- Helper: a fragment delta for an existing slot appends the fragments. -/
theorem applyToolCallDelta_append (idSupply : Nat → String) (k : Nat)
    (tc : AccumulatedToolCall) (nf af : Option String) :
    applyToolCallDelta idSupply [some tc] k (toolFragDelta nf af) =
      ([some (fragged tc (optStr nf) (optStr af))], k) := by
  simp [applyToolCallDelta, toolFragDelta, jsArrayGet, jsArraySet, appendIfTruthy_eq, fragged]

/-- Helper: processing one fragment frame from an empty accumulator emits
nothing and initializes the slot. -/
theorem stepChunk_toolFrag_init (env : StreamEnv) (st : StreamState) (nf af : Option String)
    (hacc : st.accumulatedToolCalls = []) :
    stepChunk env st (toolFragChunk nf af) =
      ({ st with
           accumulatedToolCalls := [some (initSlot (env.idSupply st.nextCallId) nf af)],
           nextCallId := st.nextCallId + 1 },
       [], false) := by
  simp [stepChunk, toolFragChunk, hacc, applyToolCallDeltas, applyToolCallDelta_init,
    usageFromChunk, strTruthy]

/-- Helper: processing one fragment frame from a one-slot accumulator emits
nothing and appends the fragments to that slot. -/
theorem stepChunk_toolFrag_append (env : StreamEnv) (st : StreamState) (nf af : Option String)
    (tc : AccumulatedToolCall) (hacc : st.accumulatedToolCalls = [some tc]) :
    stepChunk env st (toolFragChunk nf af) =
      ({ st with accumulatedToolCalls := [some (fragged tc (optStr nf) (optStr af))] },
       [], false) := by
  simp [stepChunk, toolFragChunk, hacc, applyToolCallDeltas, applyToolCallDelta_append,
    usageFromChunk, strTruthy]

/-- Helper: feeding a list of name fragments appends their concatenation to
the slot's name. -/
theorem foldChunks_nameFrags (env : StreamEnv) (frags : List String) (st : StreamState)
    (tc : AccumulatedToolCall) (hacc : st.accumulatedToolCalls = [some tc]) :
    foldChunks env st (frags.map (fun f => toolFragChunk (some f) none)) =
      ({ st with accumulatedToolCalls := [some (fragged tc (joinFrags frags) "")] },
       [], false) := by
  induction frags generalizing st tc with
  | nil =>
    simp only [List.map_nil, foldChunks, joinFrags, fragged_empty]
    rw [← hacc]
  | cons f fs ih =>
    have hstep := stepChunk_toolFrag_append env st (some f) none tc hacc
    have hrec := ih ({ st with accumulatedToolCalls := [some (fragged tc f "")] })
      (fragged tc f "") rfl
    simp only [List.map_cons, foldChunks, hstep, Bool.false_eq_true, if_false,
      List.nil_append, optStr, Option.getD_some, Option.getD_none] at *
    rw [hrec, fragged_fragged]
    simp [joinFrags, String.append_empty]

/-- Helper: feeding a list of argument fragments appends their concatenation
to the slot's argument buffer. -/
theorem foldChunks_argFrags (env : StreamEnv) (frags : List String) (st : StreamState)
    (tc : AccumulatedToolCall) (hacc : st.accumulatedToolCalls = [some tc]) :
    foldChunks env st (frags.map (fun f => toolFragChunk none (some f))) =
      ({ st with accumulatedToolCalls := [some (fragged tc "" (joinFrags frags))] },
       [], false) := by
  induction frags generalizing st tc with
  | nil =>
    simp only [List.map_nil, foldChunks, joinFrags, fragged_empty]
    rw [← hacc]
  | cons f fs ih =>
    have hstep := stepChunk_toolFrag_append env st none (some f) tc hacc
    have hrec := ih ({ st with accumulatedToolCalls := [some (fragged tc "" f)] })
      (fragged tc "" f) rfl
    simp only [List.map_cons, foldChunks, hstep, Bool.false_eq_true, if_false,
      List.nil_append, optStr, Option.getD_some, Option.getD_none] at *
    rw [hrec, fragged_fragged]
    simp [joinFrags, String.append_empty]

/-- Helper: the finish frame finalizes the one accumulated call: one
response carrying the full name and the parsed arguments, with the raw
provider finish string. -/
theorem stepChunk_finishChunk_tool (env : StreamEnv) (st : StreamState) (reason : String)
    (tc : AccumulatedToolCall) (v : JsonVal)
    (hacc : st.accumulatedToolCalls = [some tc])
    (hr : reason.isEmpty = false)
    (hname : tc.function.name.isEmpty = false)
    (hp : env.jparse (if tc.function.arguments.isEmpty then "\x7b\x7d"
            else tc.function.arguments) = some v) :
    stepChunk env st (finishChunk reason) =
      (st, [toolCallResponse env (finishChunk reason)
              { delta := some ({ content := none, tool_calls := none }),
                finish_reason := some reason, usage := none }
              st.accumulatedUsage st.accumulatedCompletionContent
              [Part.functionCall tc.function.name v]], false) := by
  have hfin : finalizeToolCalls env.jparse [some tc] =
      .ok [Part.functionCall tc.function.name v] := by
    simp only [finalizeToolCalls, hname, Bool.false_eq_true, if_false, parseArgsJS, hp]
  simp [stepChunk, finishChunk, hacc, usageFromChunk, strTruthy, hr, hfin]
  rw [← hacc]

/-- Helper: splitting the loop at a crash-free prefix. -/
theorem foldChunks_append (env : StreamEnv) (l1 l2 : List StreamChunk) (st : StreamState)
    (h : (foldChunks env st l1).2.2 = false) :
    foldChunks env st (l1 ++ l2) =
      ((foldChunks env (foldChunks env st l1).1 l2).1,
       (foldChunks env st l1).2.1 ++ (foldChunks env (foldChunks env st l1).1 l2).2.1,
       (foldChunks env (foldChunks env st l1).1 l2).2.2) := by
  induction l1 generalizing st with
  | nil => simp [foldChunks]
  | cons c t ih =>
    by_cases hcr : (stepChunk env st c).2.2 = true
    · exfalso
      simp [foldChunks, hcr] at h
    · rw [Bool.not_eq_true] at hcr
      have h' : (foldChunks env (stepChunk env st c).1 t).2.2 = false := by
        simp only [foldChunks, hcr, Bool.false_eq_true, if_false] at h
        exact h
      simp only [List.cons_append, foldChunks, hcr, Bool.false_eq_true, if_false,
        List.append_eq]
      rw [ih _ h']
      simp [List.append_assoc]

/-- Helper: a step that emits nothing and does not throw just advances the
state. -/
theorem foldChunks_cons_ok (env : StreamEnv) (st : StreamState) (c : StreamChunk)
    (rest : List StreamChunk) (st' : StreamState)
    (h : stepChunk env st c = (st', [], false)) :
    foldChunks env st (c :: rest) = foldChunks env st' rest := by
  simp only [foldChunks, h, Bool.false_eq_true, if_false, List.nil_append]

/-- Helper: a crash-free prefix that emits nothing just advances the state. -/
theorem foldChunks_prefix_ok (env : StreamEnv) (st : StreamState)
    (l1 l2 : List StreamChunk) (st' : StreamState)
    (h : foldChunks env st l1 = (st', [], false)) :
    foldChunks env st (l1 ++ l2) = foldChunks env st' l2 := by
  have happ := foldChunks_append env l1 l2 st (by rw [h])
  rw [happ, h]
  simp

/-- C3: a tool call whose name arrives in `m >= 1` fragments and whose
arguments-JSON arrives in `n >= 1` fragments, all sharing index 0, is
reassembled by appending — the finalized stream yields exactly one response
holding exactly one call that carries the full name and the parse of the
un-fragmented JSON. -/
theorem c3_tool_call_reassembly (env : StreamEnv) (nameFrags argFrags : List String)
    (nm astr : String) (v : JsonVal)
    (hnm : joinFrags nameFrags = nm) (hnm0 : nm.isEmpty = false)
    (ha : joinFrags argFrags = astr) (ha0 : astr.isEmpty = false)
    (hp : env.jparse astr = some v) :
    ((generateContentStream env
        (nameFrags.map (fun f => toolFragChunk (some f) none) ++
         (argFrags.map (fun f => toolFragChunk none (some f)) ++
          [finishChunk "tool_calls"]))).1.map
        (fun r => (r.candidates.map Candidate.parts,
                   r.candidates.map Candidate.finishReason)) =
      [([[Part.functionCall nm v]], [some "tool_calls"])]) ∧
    (generateContentStream env
        (nameFrags.map (fun f => toolFragChunk (some f) none) ++
         (argFrags.map (fun f => toolFragChunk none (some f)) ++
          [finishChunk "tool_calls"]))).2 = false := by
  subst hnm
  subst ha
  obtain ⟨f, fs, rfl⟩ : ∃ f fs, nameFrags = f :: fs := by
    cases nameFrags with
    | nil =>
      exfalso
      rw [show joinFrags [] = "" from rfl] at hnm0
      exact absurd hnm0 (by decide)
    | cons f fs => exact ⟨f, fs, rfl⟩
  have h1 : stepChunk env initialStreamState (toolFragChunk (some f) none) =
      (⟨false, [some (initSlot (env.idSupply 0) (some f) none)], ⟨0, 0, 0⟩, "", 1⟩,
       [], false) :=
    stepChunk_toolFrag_init env initialStreamState (some f) none rfl
  have h2 : foldChunks env
      (⟨false, [some (initSlot (env.idSupply 0) (some f) none)], ⟨0, 0, 0⟩, "", 1⟩ :
        StreamState)
      (fs.map (fun f => toolFragChunk (some f) none)) =
      (⟨false, [some (fragged (initSlot (env.idSupply 0) (some f) none) (joinFrags fs) "")],
        ⟨0, 0, 0⟩, "", 1⟩, [], false) :=
    foldChunks_nameFrags env fs _ (initSlot (env.idSupply 0) (some f) none) rfl
  have h3 : foldChunks env
      (⟨false, [some (fragged (initSlot (env.idSupply 0) (some f) none) (joinFrags fs) "")],
        ⟨0, 0, 0⟩, "", 1⟩ : StreamState)
      (argFrags.map (fun f => toolFragChunk none (some f))) =
      (⟨false, [some (fragged (fragged (initSlot (env.idSupply 0) (some f) none)
          (joinFrags fs) "") "" (joinFrags argFrags))], ⟨0, 0, 0⟩, "", 1⟩, [], false) :=
    foldChunks_argFrags env argFrags _
      (fragged (initSlot (env.idSupply 0) (some f) none) (joinFrags fs) "") rfl
  have hnamene : (fragged (fragged (initSlot (env.idSupply 0) (some f) none)
      (joinFrags fs) "") "" (joinFrags argFrags)).function.name.isEmpty = false := by
    simp only [fragged, initSlot, optStr, Option.getD_some, String.append_empty]
    simp only [joinFrags] at hnm0
    exact hnm0
  have hargsval : (fragged (fragged (initSlot (env.idSupply 0) (some f) none)
      (joinFrags fs) "") "" (joinFrags argFrags)).function.arguments =
      joinFrags argFrags := by
    simp [fragged, initSlot, optStr, String.append_empty, String.empty_append]
  have hp' : env.jparse (if (fragged (fragged (initSlot (env.idSupply 0) (some f) none)
      (joinFrags fs) "") "" (joinFrags argFrags)).function.arguments.isEmpty
      then "\x7b\x7d"
      else (fragged (fragged (initSlot (env.idSupply 0) (some f) none)
        (joinFrags fs) "") "" (joinFrags argFrags)).function.arguments) = some v := by
    rw [hargsval, ha0, if_neg (by simp)]
    exact hp
  have h4 : stepChunk env
      (⟨false, [some (fragged (fragged (initSlot (env.idSupply 0) (some f) none)
          (joinFrags fs) "") "" (joinFrags argFrags))], ⟨0, 0, 0⟩, "", 1⟩ : StreamState)
      (finishChunk "tool_calls") =
      ((⟨false, [some (fragged (fragged (initSlot (env.idSupply 0) (some f) none)
          (joinFrags fs) "") "" (joinFrags argFrags))], ⟨0, 0, 0⟩, "", 1⟩ : StreamState),
       [toolCallResponse env (finishChunk "tool_calls")
          { delta := some ({ content := none, tool_calls := none }),
            finish_reason := some "tool_calls", usage := none }
          ⟨0, 0, 0⟩ ""
          [Part.functionCall (fragged (fragged (initSlot (env.idSupply 0) (some f) none)
              (joinFrags fs) "") "" (joinFrags argFrags)).function.name v]],
       false) :=
    stepChunk_finishChunk_tool env _ "tool_calls"
      (fragged (fragged (initSlot (env.idSupply 0) (some f) none) (joinFrags fs) "") ""
        (joinFrags argFrags)) v rfl (by decide) hnamene hp'
  have hchain : foldChunks env initialStreamState
      ((f :: fs).map (fun f => toolFragChunk (some f) none) ++
       (argFrags.map (fun f => toolFragChunk none (some f)) ++
        [finishChunk "tool_calls"])) =
      ((⟨false, [some (fragged (fragged (initSlot (env.idSupply 0) (some f) none)
          (joinFrags fs) "") "" (joinFrags argFrags))], ⟨0, 0, 0⟩, "", 1⟩ : StreamState),
       [toolCallResponse env (finishChunk "tool_calls")
          { delta := some ({ content := none, tool_calls := none }),
            finish_reason := some "tool_calls", usage := none }
          ⟨0, 0, 0⟩ ""
          [Part.functionCall (fragged (fragged (initSlot (env.idSupply 0) (some f) none)
              (joinFrags fs) "") "" (joinFrags argFrags)).function.name v]],
       false) := by
    rw [List.map_cons, List.cons_append,
      foldChunks_cons_ok env initialStreamState _ _ _ h1,
      foldChunks_prefix_ok env _ _ _ _ h2,
      foldChunks_prefix_ok env _ _ _ _ h3]
    simp only [foldChunks, h4, Bool.false_eq_true, if_false, List.append_nil]
  constructor
  · simp only [generateContentStream, hchain]
    simp [toolCallResponse, mkCandidate, rawFinishCast, fragged, initSlot, optStr,
      String.append_empty, String.empty_append, joinFrags,
      (by decide : ("tool_calls" : String).isEmpty = false)]
  · simp only [generateContentStream, hchain]
    simp

/-- Witness for C3: the name `get` split as `ge`+`t` and the argument object
split as two half-brace fragments reassemble into one call with the parsed
empty object. -/
theorem c3_tool_call_reassembly_witness :
    ((generateContentStream envBrace
        ((["ge", "t"].map (fun f => toolFragChunk (some f) none)) ++
         ((["\x7b", "\x7d"].map (fun f => toolFragChunk none (some f))) ++
          [finishChunk "tool_calls"]))).1.map
        (fun r => (r.candidates.map Candidate.parts,
                   r.candidates.map Candidate.finishReason)) =
      [([[Part.functionCall "get" (JsonVal.jobj [])]], [some "tool_calls"])]) :=
  (c3_tool_call_reassembly envBrace ["ge", "t"] ["\x7b", "\x7d"] "get" "\x7b\x7d"
    (JsonVal.jobj []) rfl (by decide) rfl (by decide) (by simp [envBrace])).1

/-- C9: refuted on the code.  The tool-role message produced for a
functionResponse carries a FRESHLY drawn `call_<timestamp>_<random>` id as
its `toolCallId`, not the id attached to the translated tool-call object for
the corresponding function call: with a deterministic fresh-id supply the
assistant's tool call gets `call_0` while the tool message references
`call_1`, so the back-reference claimed by the spec never holds. -/
theorem c9_tool_call_id_not_back_reference :
    (convertToOpenAIMessagesWithTools jstringify0 idSupply0 c9History).map
        (fun m => (m.role, m.tool_call_id, (m.tool_calls.getD []).map OAIToolCallOut.id)) =
      [("assistant", none, ["call_0"]), ("tool", some "call_1", []), ("user", none, [])] ∧
    ("call_1" : String) ≠ "call_0" :=
  ⟨rfl, by decide⟩

end QF
